import Mathlib

/-!
Verification of the observable cache layer of telemetry-demo-go.

This file shallowly embeds the pieces of the repository that the claims
touch:

* the span data model (otel attributes, completed spans) — from the
  tracing calls scattered through the code;
* the TTL cache `InMemoryCache` (internal/cache, `package cache`):
  `Get`, `Set`, `Delete`, `Clear` and the background `cleanup` sweep;
* the origin store `InMemorySubscriberRepository` (internal/repository):
  `Create`, `GetByID`, `GetAll`, `Update`, `Delete`;
* the span recorder `TestSpanRecorder` (internal/telemetry):
  `ExportSpans`, `GetSpansByName`, `GetSpansByOperation`, `Clear`, `Count`;
* the read-through service `SubscriberService` (internal/service):
  both as a concrete composition of the in-memory cache and repository
  (for the trace-level properties) and as an error-routing skeleton over
  the results of its interface calls (for the failure-semantics
  properties).

Go `time.Time` / `time.Duration` are modelled as `Nat` instants/durations;
`time.Now().After(x)` is `now > x` (strict, exactly as `Time.After`).
Go maps are modelled as association lists without duplicate keys reachable
through the operations; `error` results are `Option String` (`none` = nil)
or `Except String _` for value-returning calls, carrying the literal
`fmt.Errorf` messages.
-/

/-- Typed otel attribute values, as used by the repository
(`attribute.String/Bool/Int`). -/
inductive AttrValue where
  | str (s : String)
  | boolVal (b : Bool)
  | intVal (n : Int)
  deriving DecidableEq

/-- Go otel `attribute.Value.AsString`: the string payload for string
values, the empty string for every other kind. -/
def AttrValue.asString : AttrValue → String
  | AttrValue.str s => s
  | AttrValue.boolVal _ => ""
  | AttrValue.intVal _ => ""

/-- One key/value attribute entry on a span. -/
structure SpanAttr where
  key : String
  value : AttrValue
  deriving DecidableEq

/-- A completed span record: name, attribute entries in the order they
were attached, and whether `RecordError` was called on it. -/
structure Span where
  name : String
  attrs : List SpanAttr
  errored : Bool
  deriving DecidableEq

/-- All values attached under the attribute key `operation`, in order. -/
def operationValues (sp : Span) : List String :=
  sp.attrs.filterMap (fun a => if a.key = "operation" then some a.value.asString else none)

/-- Test whether a span has some attribute entry `key == k` whose
`AsString` equals `v` — the predicate `TestSpanRecorder.GetSpansByOperation`
applies with `k = "operation"`. -/
def hasOpAttr (sp : Span) (k v : String) : Bool :=
  sp.attrs.any (fun a => a.key == k && a.value.asString == v)

/-- Test whether a span carries the exact attribute entry `(k, v)`. -/
def hasAttr (sp : Span) (k : String) (v : AttrValue) : Bool :=
  sp.attrs.any (fun a => a.key == k && a.value == v)

/-- The domain entity (internal/models `Subscriber`); the `uuid.UUID` id is
modelled by its canonical string and timestamps as `Nat` instants. -/
structure Subscriber where
  id : String
  email : String
  name : String
  createdAt : Nat
  updatedAt : Nat
  deriving DecidableEq

/-! ## TTL cache (internal/cache, InMemoryCache) -/

/-- A stored entry (`cacheItem`): the value plus its absolute expiry. -/
structure CacheItem where
  subscriber : Subscriber
  expireAt : Nat
  deriving DecidableEq

/-- The cache's `items` map, as an association list keyed by cache key. -/
abbrev CacheState := List (String × CacheItem)

/-- Go map lookup `c.items[key]`. -/
def lookupItem : CacheState → String → Option CacheItem
  | [], _ => none
  | (k, v) :: rest, key => if k = key then some v else lookupItem rest key

/-- The cache key derivation `GenerateCacheKey`: `"subscriber:" + id`. -/
def generateCacheKey (id : String) : String :=
  "subscriber:" ++ id

/-- InMemoryCache.Get. Returns the (unchanged) items map, the Go return
value (`(*Subscriber, error)` as `Except`), and the completed span: base
attributes `cache.key` and `operation == "cache.read"`, then the
hit/miss/expired outcome attributes. Misses and expired entries return the
literal `fmt.Errorf` errors of the source; the expiry test is
`time.Now().After(item.expireAt)`, i.e. strict `now > expireAt`. -/
def cacheGet (c : CacheState) (now : Nat) (key : String) :
    CacheState × Except String Subscriber × Span :=
  let base : List SpanAttr :=
    [⟨"cache.key", AttrValue.str key⟩, ⟨"operation", AttrValue.str "cache.read"⟩]
  match lookupItem c key with
  | none =>
      (c, Except.error "key not found in cache",
        ⟨"cache.get",
          base ++ [⟨"cache.hit", AttrValue.boolVal false⟩,
                   ⟨"cache.result", AttrValue.str "miss"⟩], false⟩)
  | some item =>
      if now > item.expireAt then
        (c, Except.error "key expired in cache",
          ⟨"cache.get",
            base ++ [⟨"cache.hit", AttrValue.boolVal false⟩,
                     ⟨"cache.result", AttrValue.str "expired"⟩], false⟩)
      else
        (c, Except.ok item.subscriber,
          ⟨"cache.get",
            base ++ [⟨"cache.hit", AttrValue.boolVal true⟩,
                     ⟨"cache.result", AttrValue.str "hit"⟩,
                     ⟨"subscriber.id", AttrValue.str item.subscriber.id⟩], false⟩)

/-- InMemoryCache.Set: stores `{subscriber, now + ttl}` under `key`,
overwriting any existing entry (Go map assignment); always returns a nil
error; span carries `cache.key`, `subscriber.id`, `operation ==
"cache.write"`, `ttl`, then `success: true`. -/
def cacheSet (c : CacheState) (now : Nat) (key : String) (sub : Subscriber) (ttl : Nat) :
    CacheState × Option String × Span :=
  ((key, ⟨sub, now + ttl⟩) :: c.filter (fun p => p.1 != key),
    none,
    ⟨"cache.set",
      [⟨"cache.key", AttrValue.str key⟩,
       ⟨"subscriber.id", AttrValue.str sub.id⟩,
       ⟨"operation", AttrValue.str "cache.write"⟩,
       ⟨"ttl", AttrValue.str (toString ttl)⟩,
       ⟨"success", AttrValue.boolVal true⟩], false⟩)

/-- InMemoryCache.Delete: `delete(c.items, key)`; records whether the key
existed; always returns a nil error. -/
def cacheDelete (c : CacheState) (key : String) :
    CacheState × Option String × Span :=
  let existed := (lookupItem c key).isSome
  (c.filter (fun p => p.1 != key),
    none,
    ⟨"cache.delete",
      [⟨"cache.key", AttrValue.str key⟩,
       ⟨"operation", AttrValue.str "cache.write"⟩,
       ⟨"key.existed", AttrValue.boolVal existed⟩,
       ⟨"success", AttrValue.boolVal true⟩], false⟩)

/-- InMemoryCache.Clear: replaces the map with a fresh empty one; records
the number of entries cleared; always returns a nil error. -/
def cacheClear (c : CacheState) :
    CacheState × Option String × Span :=
  ([],
    none,
    ⟨"cache.clear",
      [⟨"operation", AttrValue.str "cache.write"⟩,
       ⟨"items.cleared", AttrValue.intVal c.length⟩,
       ⟨"success", AttrValue.boolVal true⟩], false⟩)

/-- One sweep of the background reaper (`InMemoryCache.cleanup` loop body):
removes every entry with `now.After(item.expireAt)`, i.e. `now > expireAt`. -/
def cleanupSweep (c : CacheState) (now : Nat) : CacheState :=
  c.filter (fun p => !(now > p.2.expireAt))

/-! ## Origin store (internal/repository, InMemorySubscriberRepository) -/

/-- The repository's `subscribers` map, keyed by subscriber id. -/
abbrev RepoState := List (String × Subscriber)

/-- Go map lookup `r.subscribers[id]`. -/
def lookupSub : RepoState → String → Option Subscriber
  | [], _ => none
  | (k, v) :: rest, id => if k = id then some v else lookupSub rest id

/-- Hexadecimal digit test, as accepted by the canonical UUID format. -/
def isHexDigit (ch : Char) : Bool :=
  ch.isDigit || (ch ≥ 'a' && ch ≤ 'f') || (ch ≥ 'A' && ch ≤ 'F')

/-- The external `uuid.Parse` of github.com/google/uuid, restricted to the
canonical `xxxxxxxx-xxxx-xxxx-xxxx-xxxxxxxxxxxx` form (36 characters,
hyphens at positions 8, 13, 18 and 23, hex digits elsewhere); parsing is
case-insensitive, so the parsed id is the lowercased string. This is an
external collaborator of the repository, not repository code. -/
def uuidParse (s : String) : Option String :=
  let cs := s.toList
  if cs.length == 36 &&
      (List.range 36).all (fun i =>
        if i == 8 || i == 13 || i == 18 || i == 23 then cs.getD i ' ' == '-'
        else isHexDigit (cs.getD i ' ')) then
    some s.toLower
  else
    none

/-- InMemorySubscriberRepository.Create: refuses an already-present id with
an error (recording it on the span), otherwise inserts the subscriber. -/
def repoCreate (r : RepoState) (sub : Subscriber) :
    RepoState × Option String × Span :=
  let base : List SpanAttr :=
    [⟨"subscriber.id", AttrValue.str sub.id⟩,
     ⟨"subscriber.email", AttrValue.str sub.email⟩,
     ⟨"operation", AttrValue.str "database.write"⟩]
  match lookupSub r sub.id with
  | some _ =>
      (r, some ("subscriber with ID " ++ sub.id ++ " already exists"),
        ⟨"subscriber.repository.create", base, true⟩)
  | none =>
      ((sub.id, sub) :: r, none,
        ⟨"subscriber.repository.create",
          base ++ [⟨"success", AttrValue.boolVal true⟩], false⟩)

/-- InMemorySubscriberRepository.GetByID with an already-parsed id (the
shape the service layer calls it with: a `uuid.UUID`, so no parse step);
opens a `database.read` span, records an error on a missing id. -/
def repoGetByIDP (r : RepoState) (id : String) :
    Except String Subscriber × Span :=
  let base : List SpanAttr :=
    [⟨"subscriber.id", AttrValue.str id⟩,
     ⟨"operation", AttrValue.str "database.read"⟩]
  match lookupSub r id with
  | none =>
      (Except.error ("subscriber with ID " ++ id ++ " not found"),
        ⟨"subscriber.repository.get_by_id", base, true⟩)
  | some sub =>
      (Except.ok sub,
        ⟨"subscriber.repository.get_by_id",
          base ++ [⟨"success", AttrValue.boolVal true⟩], false⟩)

/-- InMemorySubscriberRepository.GetByID taking the raw string id: parses
it first and returns the parse error before any span is opened; the
emitted spans are returned as a list (empty on the early return). -/
def repoGetByIDStr (r : RepoState) (id : String) :
    Except String Subscriber × List Span :=
  match uuidParse id with
  | none => (Except.error "invalid UUID format", [])
  | some pid =>
      let base : List SpanAttr :=
        [⟨"subscriber.id", AttrValue.str id⟩,
         ⟨"operation", AttrValue.str "database.read"⟩]
      match lookupSub r pid with
      | none =>
          (Except.error ("subscriber with ID " ++ id ++ " not found"),
            [⟨"subscriber.repository.get_by_id", base, true⟩])
      | some sub =>
          (Except.ok sub,
            [⟨"subscriber.repository.get_by_id",
              base ++ [⟨"success", AttrValue.boolVal true⟩], false⟩])

/-- InMemorySubscriberRepository.GetAll: returns every stored subscriber
and a `database.read` span recording the count. -/
def repoGetAll (r : RepoState) :
    List Subscriber × Span :=
  let subs := r.map (fun p => p.2)
  (subs,
    ⟨"subscriber.repository.get_all",
      [⟨"operation", AttrValue.str "database.read"⟩,
       ⟨"subscriber.count", AttrValue.intVal subs.length⟩,
       ⟨"success", AttrValue.boolVal true⟩], false⟩)

/-- InMemorySubscriberRepository.Update: errors (recording on the span) if
the id is absent; otherwise stamps `UpdatedAt = time.Now()` and stores the
subscriber under its id. -/
def repoUpdate (r : RepoState) (now : Nat) (sub : Subscriber) :
    RepoState × Option String × Span :=
  let base : List SpanAttr :=
    [⟨"subscriber.id", AttrValue.str sub.id⟩,
     ⟨"operation", AttrValue.str "database.write"⟩]
  match lookupSub r sub.id with
  | none =>
      (r, some ("subscriber with ID " ++ sub.id ++ " not found"),
        ⟨"subscriber.repository.update", base, true⟩)
  | some _ =>
      ((sub.id, { sub with updatedAt := now }) :: r.filter (fun p => p.1 != sub.id),
        none,
        ⟨"subscriber.repository.update",
          base ++ [⟨"success", AttrValue.boolVal true⟩], false⟩)

/-- InMemorySubscriberRepository.Delete: parse failure returns an error
before any span is opened; a missing id errors (recording on the span);
otherwise the entry is removed. Emitted spans are returned as a list. -/
def repoDelete (r : RepoState) (id : String) :
    RepoState × Option String × List Span :=
  match uuidParse id with
  | none => (r, some "invalid UUID format", [])
  | some pid =>
      let base : List SpanAttr :=
        [⟨"subscriber.id", AttrValue.str id⟩,
         ⟨"operation", AttrValue.str "database.write"⟩]
      match lookupSub r pid with
      | none =>
          (r, some ("subscriber with ID " ++ id ++ " not found"),
            [⟨"subscriber.repository.delete", base, true⟩])
      | some _ =>
          (r.filter (fun p => p.1 != pid), none,
            [⟨"subscriber.repository.delete",
              base ++ [⟨"success", AttrValue.boolVal true⟩], false⟩])

/-! ## Span recorder (internal/telemetry, TestSpanRecorder) -/

/-- The recorder's accumulated `spans` slice, in recording order. -/
abbrev RecorderState := List Span

/-- TestSpanRecorder.ExportSpans: appends the completed batch. -/
def exportSpans (r : RecorderState) (spans : List Span) : RecorderState :=
  r ++ spans

/-- TestSpanRecorder.Clear: replaces the slice with a fresh empty one. -/
def recorderClear (_ : RecorderState) : RecorderState :=
  []

/-- TestSpanRecorder.Count: the number of recorded spans. -/
def recorderCount (r : RecorderState) : Nat :=
  r.length

/-- TestSpanRecorder.GetSpansByName: the recorded spans with that name, in
recording order. -/
def getSpansByName (r : RecorderState) (name : String) : List Span :=
  r.filter (fun sp => sp.name == name)

/-- TestSpanRecorder.GetSpansByOperation: the recorded spans having some
attribute entry with key `operation` whose `AsString` equals the argument,
in recording order. -/
def getSpansByOperation (r : RecorderState) (operation : String) : List Span :=
  r.filter (fun sp => hasOpAttr sp "operation" operation)

/-! ## Read-through service (internal/service, SubscriberService)

Two views of subscriber_service.go. The concrete flows compose the
in-memory cache and repository models and collect the spans that complete
during one service call, in the order the spans end (children before the
service's own span). The result skeletons capture the same functions'
control flow over the results of their interface calls, for the failure
semantics: cache errors are only logged, repository errors are returned
verbatim. -/

/-- TTL used by the service when populating the cache: `5 * time.Minute`
in nanoseconds. -/
def fiveMinutes : Nat := 5 * 60 * 1000000000

/-- The service's own span for `GetSubscriber` on a cache hit. -/
def svcGetSpanHit (id : String) : Span :=
  ⟨"subscriber.service.get",
    [⟨"subscriber.id", AttrValue.str id⟩,
     ⟨"cache.hit", AttrValue.boolVal true⟩,
     ⟨"success", AttrValue.boolVal true⟩], false⟩

/-- The service's own span for `GetSubscriber` on a cache miss followed by
a successful origin read. -/
def svcGetSpanMiss (id : String) : Span :=
  ⟨"subscriber.service.get",
    [⟨"subscriber.id", AttrValue.str id⟩,
     ⟨"cache.hit", AttrValue.boolVal false⟩,
     ⟨"success", AttrValue.boolVal true⟩], false⟩

/-- The service's own span for `GetSubscriber` when the origin read fails
(the error is recorded on the span). -/
def svcGetSpanErr (id : String) : Span :=
  ⟨"subscriber.service.get", [⟨"subscriber.id", AttrValue.str id⟩], true⟩

/-- The service's own span for a successful `CreateSubscriber`. -/
def svcCreateSpanOk (sub : Subscriber) : Span :=
  ⟨"subscriber.service.create",
    [⟨"subscriber.email", AttrValue.str sub.email⟩,
     ⟨"subscriber.name", AttrValue.str sub.name⟩,
     ⟨"subscriber.id", AttrValue.str sub.id⟩,
     ⟨"success", AttrValue.boolVal true⟩], false⟩

/-- The service's own span for a failed `CreateSubscriber`. -/
def svcCreateSpanErr (sub : Subscriber) : Span :=
  ⟨"subscriber.service.create",
    [⟨"subscriber.email", AttrValue.str sub.email⟩,
     ⟨"subscriber.name", AttrValue.str sub.name⟩], true⟩

/-- Combined state and observations of one service call. -/
structure FlowOut where
  repoSt : RepoState
  cacheSt : CacheState
  result : Except String Subscriber
  spans : List Span

/-- SubscriberService.CreateSubscriber, with the fresh subscriber (built by
`models.NewSubscriber`) passed in: `repo.Create`, and on success a
best-effort `cache.Set` with a five-minute TTL whose error would only be
logged. Spans are listed in completion order. -/
def svcCreateFlow (rs : RepoState) (cs : CacheState) (now : Nat) (sub : Subscriber) :
    FlowOut :=
  match repoCreate rs sub with
  | (rs1, some e, sp) =>
      ⟨rs1, cs, Except.error e, [sp, svcCreateSpanErr sub]⟩
  | (rs1, none, sp) =>
      let setOut := cacheSet cs now (generateCacheKey sub.id) sub fiveMinutes
      ⟨rs1, setOut.1, Except.ok sub, [sp, setOut.2.2, svcCreateSpanOk sub]⟩

/-- SubscriberService.GetSubscriber: `cache.Get`; on a nil error return the
cached value with no repository access; otherwise `repo.GetByID`,
propagating its error, and on success a best-effort `cache.Set` with a
five-minute TTL. Spans are listed in completion order. -/
def svcGetFlow (rs : RepoState) (cs : CacheState) (now : Nat) (id : String) :
    FlowOut :=
  let key := generateCacheKey id
  let getOut := cacheGet cs now key
  match getOut.2.1 with
  | Except.ok sub =>
      ⟨rs, cs, Except.ok sub, [getOut.2.2, svcGetSpanHit id]⟩
  | Except.error _ =>
      let repoOut := repoGetByIDP rs id
      match repoOut.1 with
      | Except.error e =>
          ⟨rs, cs, Except.error e, [getOut.2.2, repoOut.2, svcGetSpanErr id]⟩
      | Except.ok sub =>
          let setOut := cacheSet cs now key sub fiveMinutes
          ⟨rs, setOut.1, Except.ok sub,
            [getOut.2.2, repoOut.2, setOut.2.2, svcGetSpanMiss id]⟩

/-- The spec's P1 scenario, composed exactly as the service composes it:
create a subscriber at `t0`, read it at `t1`, read it again at `t2`,
threading the repository and cache states; the three `FlowOut`s are
returned for inspection. -/
def readTwiceScenario (rs : RepoState) (cs : CacheState) (sub : Subscriber)
    (t0 t1 t2 : Nat) : FlowOut × FlowOut × FlowOut :=
  let f1 := svcCreateFlow rs cs t0 sub
  let f2 := svcGetFlow f1.repoSt f1.cacheSt t1 sub.id
  let f3 := svcGetFlow f2.repoSt f2.cacheSt t2 sub.id
  (f1, f2, f3)

/-- Error routing of SubscriberService.CreateSubscriber over the results of
its interface calls: the `repo.Create` error aborts and is returned; the
`cache.Set` error is only logged. -/
def svcCreateResult (repoCreateErr : Option String) (cacheSetErr : Option String)
    (sub : Subscriber) : Except String Subscriber :=
  match repoCreateErr, cacheSetErr with
  | some e, _ => Except.error e
  | none, _ => Except.ok sub

/-- Error routing of SubscriberService.GetSubscriber: a nil-error
`cache.Get` short-circuits; otherwise the `repo.GetByID` result (value or
error) is returned verbatim and the `cache.Set` error is only logged. -/
def svcGetResult (cacheGetRes : Except String Subscriber)
    (repoGetRes : Except String Subscriber) (cacheSetErr : Option String) :
    Except String Subscriber :=
  match cacheGetRes, cacheSetErr with
  | Except.ok sub, _ => Except.ok sub
  | Except.error _, _ => repoGetRes

/-- Error routing of SubscriberService.UpdateSubscriber: `repo.GetByID`
and `repo.Update` errors abort and are returned; the invalidating
`cache.Delete` error is only logged; on success the mutated existing
subscriber (new email, name and update time) is returned. -/
def svcUpdateResult (repoGetRes : Except String Subscriber)
    (repoUpdateErr : Option String) (cacheDeleteErr : Option String)
    (email name : String) (now : Nat) : Except String Subscriber :=
  match repoGetRes with
  | Except.error e => Except.error e
  | Except.ok existing =>
      match repoUpdateErr, cacheDeleteErr with
      | some e, _ => Except.error e
      | none, _ => Except.ok { existing with email := email, name := name, updatedAt := now }

/-- Error routing of SubscriberService.DeleteSubscriber: the `repo.Delete`
error aborts and is returned; the `cache.Delete` error is only logged. -/
def svcDeleteResult (repoDeleteErr : Option String) (cacheDeleteErr : Option String) :
    Option String :=
  match repoDeleteErr, cacheDeleteErr with
  | some e, _ => some e
  | none, _ => none

/-- Concrete subscriber used to instantiate theorems with hypotheses. -/
def subA : Subscriber := ⟨"a", "a@x.com", "A", 0, 0⟩

/-! ## Map lemmas for the association-list embedding of Go maps -/

theorem lookupItem_filter_of_none (c : CacheState) (key : String)
    (q : String × CacheItem → Bool) (h : lookupItem c key = none) :
    lookupItem (c.filter q) key = none := by
  induction c with
  | nil => rfl
  | cons hd tl ih =>
    obtain ⟨k, v⟩ := hd
    simp only [lookupItem] at h
    by_cases hk : k = key
    · simp [hk] at h
    · cases hq : q (k, v) with
      | true => simpa [List.filter_cons, hq, lookupItem, hk] using ih (by simpa [hk] using h)
      | false => simpa [List.filter_cons, hq] using ih (by simpa [hk] using h)

theorem lookupItem_filterNe_self (c : CacheState) (key : String) :
    lookupItem (c.filter fun p => p.1 != key) key = none := by
  induction c with
  | nil => rfl
  | cons hd tl ih =>
    obtain ⟨k, v⟩ := hd
    by_cases hk : k = key
    · simpa [List.filter_cons, hk] using ih
    · simpa [List.filter_cons, hk, lookupItem] using ih

theorem lookupItem_filterNe_other (c : CacheState) (key k' : String) (h : k' ≠ key) :
    lookupItem (c.filter fun p => p.1 != key) k' = lookupItem c k' := by
  induction c with
  | nil => rfl
  | cons hd tl ih =>
    obtain ⟨k, v⟩ := hd
    by_cases hk : k = key
    · subst hk
      simp [List.filter_cons, lookupItem, Ne.symm h, ih]
    · by_cases hk' : k = k'
      · simp [List.filter_cons, hk, lookupItem, hk', h]
      · simp [List.filter_cons, hk, lookupItem, hk', ih]

theorem lookupItem_set_self (c : CacheState) (now ttl : Nat) (key : String)
    (sub : Subscriber) :
    lookupItem (cacheSet c now key sub ttl).1 key = some ⟨sub, now + ttl⟩ := by
  simp [cacheSet, lookupItem]

theorem cacheGet_of_lookup_none (c : CacheState) (now : Nat) (key : String)
    (h : lookupItem c key = none) :
    (cacheGet c now key).2.1 = Except.error "key not found in cache" := by
  simp [cacheGet, h]

theorem cacheGet_of_lookup_live (c : CacheState) (now : Nat) (key : String)
    (item : CacheItem) (h : lookupItem c key = some item)
    (hl : ¬ now > item.expireAt) :
    (cacheGet c now key).2.1 = Except.ok item.subscriber := by
  simp [cacheGet, h, hl]

theorem lookupItem_sweep_set_self (c : CacheState) (t0 ttl ts : Nat) (key : String)
    (sub : Subscriber) :
    lookupItem (cleanupSweep (cacheSet c t0 key sub ttl).1 ts) key =
      if ts > t0 + ttl then none else some ⟨sub, t0 + ttl⟩ := by
  by_cases hc : ts > t0 + ttl
  · rw [if_pos hc]
    have hdrop : cleanupSweep (cacheSet c t0 key sub ttl).1 ts =
        cleanupSweep (c.filter fun p => p.1 != key) ts := by
      simp [cacheSet, cleanupSweep, List.filter_cons, hc]
    rw [hdrop]
    exact lookupItem_filter_of_none _ _ _ (lookupItem_filterNe_self c key)
  · rw [if_neg hc]
    have hkeep : cleanupSweep (cacheSet c t0 key sub ttl).1 ts =
        (key, ⟨sub, t0 + ttl⟩) :: cleanupSweep (c.filter fun p => p.1 != key) ts := by
      simp [cacheSet, cleanupSweep, List.filter_cons, hc]
    rw [hkeep]
    simp [lookupItem]

theorem cacheGet_hit_eq (c : CacheState) (now : Nat) (key : String)
    (item : CacheItem) (h : lookupItem c key = some item)
    (hl : ¬ now > item.expireAt) :
    cacheGet c now key =
      (c, Except.ok item.subscriber,
        ⟨"cache.get",
          [⟨"cache.key", AttrValue.str key⟩,
           ⟨"operation", AttrValue.str "cache.read"⟩,
           ⟨"cache.hit", AttrValue.boolVal true⟩,
           ⟨"cache.result", AttrValue.str "hit"⟩,
           ⟨"subscriber.id", AttrValue.str item.subscriber.id⟩], false⟩) := by
  simp [cacheGet, h, hl]

theorem svcGetFlow_hit (rs : RepoState) (cs : CacheState) (now : Nat) (id : String)
    (item : CacheItem) (h : lookupItem cs (generateCacheKey id) = some item)
    (hl : ¬ now > item.expireAt) :
    svcGetFlow rs cs now id =
      ⟨rs, cs, Except.ok item.subscriber,
        [⟨"cache.get",
          [⟨"cache.key", AttrValue.str (generateCacheKey id)⟩,
           ⟨"operation", AttrValue.str "cache.read"⟩,
           ⟨"cache.hit", AttrValue.boolVal true⟩,
           ⟨"cache.result", AttrValue.str "hit"⟩,
           ⟨"subscriber.id", AttrValue.str item.subscriber.id⟩], false⟩,
         svcGetSpanHit id]⟩ := by
  have hg := cacheGet_hit_eq cs now (generateCacheKey id) item h hl
  simp only [svcGetFlow, hg]

/-- C1: a key written via the Create flow and read twice via the
read-through flow (within the five-minute population TTL) yields a second
read with zero spans tagged `operation == "database.read"` and at least
one span tagged `operation == "cache.read"` with `cache.hit == true`; and
on any read where the cache does not return the value, the flow calls
Origin.GetByID and then (best-effort) Cache.Set before returning. -/
theorem c1_cache_hit_isolation :
    (∀ (rs : RepoState) (cs : CacheState) (sub : Subscriber) (t0 t1 t2 : Nat),
      lookupSub rs sub.id = none → t0 ≤ t1 → t1 ≤ t2 → t2 ≤ t0 + fiveMinutes →
      getSpansByOperation (readTwiceScenario rs cs sub t0 t1 t2).2.2.spans
          "database.read" = [] ∧
      ∃ sp, sp ∈ (readTwiceScenario rs cs sub t0 t1 t2).2.2.spans ∧
        hasOpAttr sp "operation" "cache.read" = true ∧
        hasAttr sp "cache.hit" (AttrValue.boolVal true) = true) ∧
    (∀ (rs : RepoState) (cs : CacheState) (now : Nat) (id e : String)
        (sub : Subscriber),
      (cacheGet cs now (generateCacheKey id)).2.1 = Except.error e →
      (repoGetByIDP rs id).1 = Except.ok sub →
      svcGetFlow rs cs now id =
        ⟨rs, (cacheSet cs now (generateCacheKey id) sub fiveMinutes).1,
          Except.ok sub,
          [(cacheGet cs now (generateCacheKey id)).2.2, (repoGetByIDP rs id).2,
            (cacheSet cs now (generateCacheKey id) sub fiveMinutes).2.2,
            svcGetSpanMiss id]⟩) := by
  constructor
  · intro rs cs sub t0 t1 t2 hfresh h01 h12 h2
    have hcr : repoCreate rs sub =
        ((sub.id, sub) :: rs, none,
          ⟨"subscriber.repository.create",
            [⟨"subscriber.id", AttrValue.str sub.id⟩,
             ⟨"subscriber.email", AttrValue.str sub.email⟩,
             ⟨"operation", AttrValue.str "database.write"⟩,
             ⟨"success", AttrValue.boolVal true⟩], false⟩) := by
      simp [repoCreate, hfresh]
    have hlk : lookupItem (cacheSet cs t0 (generateCacheKey sub.id) sub fiveMinutes).1
        (generateCacheKey sub.id) = some ⟨sub, t0 + fiveMinutes⟩ :=
      lookupItem_set_self cs t0 fiveMinutes (generateCacheKey sub.id) sub
    have hf2 := svcGetFlow_hit ((sub.id, sub) :: rs)
      (cacheSet cs t0 (generateCacheKey sub.id) sub fiveMinutes).1 t1 sub.id
      ⟨sub, t0 + fiveMinutes⟩ hlk (show ¬ t1 > t0 + fiveMinutes by omega)
    have hf3 := svcGetFlow_hit ((sub.id, sub) :: rs)
      (cacheSet cs t0 (generateCacheKey sub.id) sub fiveMinutes).1 t2 sub.id
      ⟨sub, t0 + fiveMinutes⟩ hlk (show ¬ t2 > t0 + fiveMinutes by omega)
    have hsc : (readTwiceScenario rs cs sub t0 t1 t2).2.2.spans =
        [⟨"cache.get",
          [⟨"cache.key", AttrValue.str (generateCacheKey sub.id)⟩,
           ⟨"operation", AttrValue.str "cache.read"⟩,
           ⟨"cache.hit", AttrValue.boolVal true⟩,
           ⟨"cache.result", AttrValue.str "hit"⟩,
           ⟨"subscriber.id", AttrValue.str sub.id⟩], false⟩,
         svcGetSpanHit sub.id] := by
      simp only [readTwiceScenario, svcCreateFlow, hcr, hf2, hf3]
    refine ⟨?_, ?_⟩
    · rw [hsc]
      simp [getSpansByOperation, hasOpAttr, AttrValue.asString, svcGetSpanHit]
    · rw [hsc]
      refine ⟨_, List.mem_cons_self _ _, ?_, ?_⟩ <;>
        simp [hasOpAttr, hasAttr, AttrValue.asString]
  · intro rs cs now id e sub h1 h2
    simp only [svcGetFlow, h1, h2]

/-- Witness for C1 at concrete inputs: create into the empty store and
read twice at time 0. -/
theorem c1_cache_hit_isolation_witness :
    getSpansByOperation (readTwiceScenario [] [] subA 0 0 0).2.2.spans
        "database.read" = [] ∧
    ∃ sp, sp ∈ (readTwiceScenario [] [] subA 0 0 0).2.2.spans ∧
      hasOpAttr sp "operation" "cache.read" = true ∧
      hasAttr sp "cache.hit" (AttrValue.boolVal true) = true :=
  c1_cache_hit_isolation.1 [] [] subA 0 0 0 (by decide) (by decide) (by decide)
    (by omega)

/-- Counterexample to C2 as stated: after a Set at time 0 with TTL 5, a
Get at time exactly 5 (t = d) still returns the value, because the code
tests `time.Now().After(expireAt)`, which is strict; the claim demands
not-found with `cache.result = "expired"` for every `t >= d`. -/
theorem c2_counterexample :
    (cacheGet (cacheSet [] 0 "k" subA 5).1 5 "k").2.1 = Except.ok subA := rfl

/-- C2 (amended): an entry set at `t0` with TTL `ttl` is found by Get at
`t0 + t` for every `t ≤ ttl` — also after any reaper sweep at `ts ≤ t0 +
t` — and is not found for every `t > ttl`: with attributes `cache.hit =
false`, `cache.result = "expired"` when the entry has not been swept, and
with some error (miss after a sweep removed it, expired otherwise)
regardless of whether the reaper has run. -/
theorem c2_ttl_expiry (c : CacheState) (t0 ttl t ts : Nat) (key : String)
    (sub : Subscriber) :
    (t ≤ ttl →
      (cacheGet (cacheSet c t0 key sub ttl).1 (t0 + t) key).2.1 = Except.ok sub) ∧
    (t ≤ ttl → ts ≤ t0 + t →
      (cacheGet (cleanupSweep (cacheSet c t0 key sub ttl).1 ts) (t0 + t) key).2.1 =
        Except.ok sub) ∧
    (ttl < t →
      (cacheGet (cacheSet c t0 key sub ttl).1 (t0 + t) key).2.1 =
        Except.error "key expired in cache" ∧
      hasAttr (cacheGet (cacheSet c t0 key sub ttl).1 (t0 + t) key).2.2 "cache.hit"
        (AttrValue.boolVal false) = true ∧
      hasAttr (cacheGet (cacheSet c t0 key sub ttl).1 (t0 + t) key).2.2 "cache.result"
        (AttrValue.str "expired") = true) ∧
    (ttl < t → ts ≤ t0 + t →
      ∃ msg,
        (cacheGet (cleanupSweep (cacheSet c t0 key sub ttl).1 ts) (t0 + t) key).2.1 =
          Except.error msg) := by
  refine ⟨?_, ?_, ?_, ?_⟩
  · intro h1
    exact cacheGet_of_lookup_live _ _ _ _ (lookupItem_set_self c t0 ttl key sub)
      (show ¬ t0 + t > t0 + ttl by omega)
  · intro h1 h2
    have hl := lookupItem_sweep_set_self c t0 ttl ts key sub
    rw [if_neg (by omega)] at hl
    exact cacheGet_of_lookup_live _ _ _ _ hl (show ¬ t0 + t > t0 + ttl by omega)
  · intro h1
    have hl := lookupItem_set_self c t0 ttl key sub
    have hx : t0 + t > t0 + ttl := by omega
    refine ⟨?_, ?_, ?_⟩ <;> simp [cacheGet, hl, hx, hasAttr]
  · intro h1 h2
    have hl := lookupItem_sweep_set_self c t0 ttl ts key sub
    by_cases hc : ts > t0 + ttl
    · rw [if_pos hc] at hl
      exact ⟨"key not found in cache", cacheGet_of_lookup_none _ _ _ hl⟩
    · rw [if_neg hc] at hl
      refine ⟨"key expired in cache", ?_⟩
      simp [cacheGet, hl, show t0 + t > t0 + ttl by omega]

/-- Witness for C2 at concrete inputs: set at 0 with TTL 5; read at 3 hits
(also after a sweep at 2); read at 7 is expired; read at 7 after a sweep
at 6 is still not found. -/
theorem c2_ttl_expiry_witness :
    (3 ≤ 5 ∧
      (cacheGet (cacheSet [] 0 "k" subA 5).1 (0 + 3) "k").2.1 = Except.ok subA) ∧
    ((cacheGet (cleanupSweep (cacheSet [] 0 "k" subA 5).1 2) (0 + 3) "k").2.1 =
      Except.ok subA) ∧
    (5 < 7 ∧
      (cacheGet (cacheSet [] 0 "k" subA 5).1 (0 + 7) "k").2.1 =
        Except.error "key expired in cache") ∧
    (∃ msg,
      (cacheGet (cleanupSweep (cacheSet [] 0 "k" subA 5).1 6) (0 + 7) "k").2.1 =
        Except.error msg) :=
  ⟨⟨by decide, (c2_ttl_expiry [] 0 5 3 2 "k" subA).1 (by decide)⟩,
    (c2_ttl_expiry [] 0 5 3 2 "k" subA).2.1 (by decide) (by decide),
    ⟨by decide, ((c2_ttl_expiry [] 0 5 7 6 "k" subA).2.2.1 (by decide)).1⟩,
    (c2_ttl_expiry [] 0 5 7 6 "k" subA).2.2.2 (by decide) (by decide)⟩

/-- Counterexample to C3 as stated: on a missing key the cache itself
returns a non-nil error value — not a boolean/optional not-found
outcome. -/
theorem c3_counterexample :
    (cacheGet [] 0 "k").2.1 = Except.error "key not found in cache" := rfl

/-- C3 (amended): Cache.Get reports a missing or expired entry by a nil
value together with a non-nil error carrying a fixed message ("key not
found in cache" / "key expired in cache"), tags the span `cache.hit =
false` with `cache.result` miss/expired without recording a span error,
and the read-through flow treats any Get error as a miss: it falls back
to the origin and never propagates the cache error. -/
theorem c3_not_found_reporting (c : CacheState) (now : Nat) (key : String)
    (item : CacheItem) :
    (lookupItem c key = none →
      (cacheGet c now key).2.1 = Except.error "key not found in cache" ∧
      hasAttr (cacheGet c now key).2.2 "cache.hit" (AttrValue.boolVal false) = true ∧
      hasAttr (cacheGet c now key).2.2 "cache.result" (AttrValue.str "miss") = true ∧
      (cacheGet c now key).2.2.errored = false) ∧
    (lookupItem c key = some item → now > item.expireAt →
      (cacheGet c now key).2.1 = Except.error "key expired in cache" ∧
      hasAttr (cacheGet c now key).2.2 "cache.hit" (AttrValue.boolVal false) = true ∧
      hasAttr (cacheGet c now key).2.2 "cache.result" (AttrValue.str "expired") = true ∧
      (cacheGet c now key).2.2.errored = false) ∧
    (∀ e repoRes setErr, svcGetResult (Except.error e) repoRes setErr = repoRes) := by
  refine ⟨fun h => ?_, fun h hx => ?_, fun e repoRes setErr => rfl⟩
  · refine ⟨?_, ?_, ?_, ?_⟩ <;> simp [cacheGet, h, hasAttr]
  · refine ⟨?_, ?_, ?_, ?_⟩ <;> simp [cacheGet, h, hx, hasAttr]

/-- Witness for C3 at concrete inputs: an empty cache misses and a stale
entry expires, each with the fixed error and the miss/expired span
attributes. -/
theorem c3_not_found_reporting_witness :
    ((cacheGet [] 0 "k").2.1 = Except.error "key not found in cache" ∧
      hasAttr (cacheGet [] 0 "k").2.2 "cache.hit" (AttrValue.boolVal false) = true ∧
      hasAttr (cacheGet [] 0 "k").2.2 "cache.result" (AttrValue.str "miss") = true ∧
      (cacheGet [] 0 "k").2.2.errored = false) ∧
    ((cacheGet [("k", ⟨subA, 1⟩)] 2 "k").2.1 = Except.error "key expired in cache" ∧
      hasAttr (cacheGet [("k", ⟨subA, 1⟩)] 2 "k").2.2 "cache.hit"
        (AttrValue.boolVal false) = true ∧
      hasAttr (cacheGet [("k", ⟨subA, 1⟩)] 2 "k").2.2 "cache.result"
        (AttrValue.str "expired") = true ∧
      (cacheGet [("k", ⟨subA, 1⟩)] 2 "k").2.2.errored = false) :=
  ⟨(c3_not_found_reporting [] 0 "k" ⟨subA, 1⟩).1 (by decide),
    (c3_not_found_reporting [("k", ⟨subA, 1⟩)] 2 "k" ⟨subA, 1⟩).2.1 (by decide)
      (by decide)⟩

/-- C4: every span opened by a cache operation carries an `operation`
attribute equal to exactly one of cache.read / cache.write — Get emits
cache.read; Set, Delete and Clear emit cache.write — and every span opened
by the origin store carries exactly one of database.read / database.write
— GetByID and GetAll emit database.read; Create, Update and Delete emit
database.write. -/
theorem c4_operation_attribute (c : CacheState) (r : RepoState)
    (now ttl : Nat) (key id : String) (sub : Subscriber) :
    operationValues (cacheGet c now key).2.2 = ["cache.read"] ∧
    operationValues (cacheSet c now key sub ttl).2.2 = ["cache.write"] ∧
    operationValues (cacheDelete c key).2.2 = ["cache.write"] ∧
    operationValues (cacheClear c).2.2 = ["cache.write"] ∧
    operationValues (repoCreate r sub).2.2 = ["database.write"] ∧
    operationValues (repoGetByIDP r id).2 = ["database.read"] ∧
    ((repoGetByIDStr r id).2.all fun sp =>
      operationValues sp == ["database.read"]) = true ∧
    operationValues (repoGetAll r).2 = ["database.read"] ∧
    operationValues (repoUpdate r now sub).2.2 = ["database.write"] ∧
    ((repoDelete r id).2.2.all fun sp =>
      operationValues sp == ["database.write"]) = true := by
  refine ⟨?_, ?_, ?_, ?_, ?_, ?_, ?_, ?_, ?_, ?_⟩
  · unfold cacheGet
    cases h : lookupItem c key with
    | none => simp [operationValues, AttrValue.asString]
    | some item =>
        by_cases hx : now > item.expireAt <;>
          simp [hx, operationValues, AttrValue.asString]
  · simp [cacheSet, operationValues, AttrValue.asString]
  · simp [cacheDelete, operationValues, AttrValue.asString]
  · simp [cacheClear, operationValues, AttrValue.asString]
  · unfold repoCreate
    cases h : lookupSub r sub.id <;> simp [operationValues, AttrValue.asString]
  · unfold repoGetByIDP
    cases h : lookupSub r id <;> simp [operationValues, AttrValue.asString]
  · unfold repoGetByIDStr
    cases hp : uuidParse id with
    | none => simp
    | some pid =>
        cases h : lookupSub r pid <;> simp [h, operationValues, AttrValue.asString]
  · simp [repoGetAll, operationValues, AttrValue.asString]
  · unfold repoUpdate
    cases h : lookupSub r sub.id <;> simp [operationValues, AttrValue.asString]
  · unfold repoDelete
    cases hp : uuidParse id with
    | none => simp
    | some pid =>
        cases h : lookupSub r pid <;> simp [h, operationValues, AttrValue.asString]

theorem recorderCount_foldl (batches : List (List Span)) (acc : RecorderState) :
    recorderCount (batches.foldl exportSpans acc) =
      recorderCount acc + (batches.map List.length).sum := by
  induction batches generalizing acc with
  | nil => simp [recorderCount]
  | cons b bs ih =>
      rw [List.foldl_cons]
      have hb := ih (exportSpans acc b)
      simp only [recorderCount, exportSpans, List.length_append] at hb ⊢
      simp only [List.map_cons, List.sum_cons]
      omega

/-- C5: for the span recorder, Clear then Count returns 0; recording
batches of spans after a Clear with no intervening Clear makes Count the
total number of spans recorded; and GetSpansByOperation returns exactly
the recorded spans having an attribute entry `operation == x`, as an
order-preserving subsequence of the record, so its length is at most
Count. -/
theorem c5_recorder_queries (r : RecorderState) (batches : List (List Span))
    (x : String) (sp : Span) :
    recorderCount (recorderClear r) = 0 ∧
    recorderCount (batches.foldl exportSpans (recorderClear r)) =
      (batches.map List.length).sum ∧
    (sp ∈ getSpansByOperation r x ↔ sp ∈ r ∧ hasOpAttr sp "operation" x = true) ∧
    List.Sublist (getSpansByOperation r x) r ∧
    (getSpansByOperation r x).length ≤ recorderCount r := by
  refine ⟨rfl, ?_, ?_, ?_, ?_⟩
  · simpa [recorderClear, recorderCount] using
      recorderCount_foldl batches (recorderClear r)
  · simp [getSpansByOperation, List.mem_filter]
  · exact List.filter_sublist r
  · exact List.length_filter_le _ r

/-- C6: in every read-through service operation (Create, Read, Update,
Delete) an error from the origin store aborts the operation and is
returned verbatim to the caller, whereas an error from the cache during
population (Set) or invalidation (Delete) never changes the operation's
returned value or error. -/
theorem c6_failure_semantics :
    (∀ e cErr sub, svcCreateResult (some e) cErr sub = Except.error e) ∧
    (∀ rc c1 c2 sub, svcCreateResult rc c1 sub = svcCreateResult rc c2 sub) ∧
    (∀ sub rg cErr, svcGetResult (Except.ok sub) rg cErr = Except.ok sub) ∧
    (∀ e rg cErr, svcGetResult (Except.error e) rg cErr = rg) ∧
    (∀ cg rg c1 c2, svcGetResult cg rg c1 = svcGetResult cg rg c2) ∧
    (∀ e ru cErr em nm now,
      svcUpdateResult (Except.error e) ru cErr em nm now = Except.error e) ∧
    (∀ ex e cErr em nm now,
      svcUpdateResult (Except.ok ex) (some e) cErr em nm now = Except.error e) ∧
    (∀ rg ru c1 c2 em nm now,
      svcUpdateResult rg ru c1 em nm now = svcUpdateResult rg ru c2 em nm now) ∧
    (∀ e cErr, svcDeleteResult (some e) cErr = some e) ∧
    (∀ rd c1 c2, svcDeleteResult rd c1 = svcDeleteResult rd c2) := by
  refine ⟨fun _ _ _ => rfl, ?_, fun _ _ _ => rfl, ?_, ?_,
    fun _ _ _ _ _ _ => rfl, fun _ _ _ _ _ _ => rfl, ?_, fun _ _ => rfl, ?_⟩
  · intro rc c1 c2 sub
    cases rc <;> rfl
  · intro e rg cErr
    rfl
  · intro cg rg c1 c2
    cases cg <;> rfl
  · intro rg ru c1 c2 em nm now
    cases rg with
    | error e => rfl
    | ok ex => cases ru <;> rfl
  · intro rd c1 c2
    cases rd <;> rfl

/-- C7: Cache.Get never modifies the cache state — for every key and every
cache state, including when the looked-up entry is expired, the
key-to-entry mapping after Get equals the mapping before; expired entries
are removed only by the reaper sweep, which drops exactly the entries
whose expiry has passed. -/
theorem c7_get_no_mutation (c : CacheState) (now ts : Nat) (key : String)
    (e : String × CacheItem) :
    (cacheGet c now key).1 = c ∧
    (e ∈ cleanupSweep c ts ↔ e ∈ c ∧ ts ≤ e.2.expireAt) := by
  constructor
  · unfold cacheGet
    cases lookupItem c key with
    | none => rfl
    | some item => by_cases hx : now > item.expireAt <;> simp [hx]
  · simp only [cleanupSweep, List.mem_filter, Bool.not_eq_true']
    constructor
    · rintro ⟨hm, hb⟩
      simp only [decide_eq_false_iff_not] at hb
      exact ⟨hm, by omega⟩
    · rintro ⟨hm, hb⟩
      refine ⟨hm, ?_⟩
      simp only [decide_eq_false_iff_not]
      omega

/-- C8: Cache.Set stores the entry with value and expiry `now + ttl`,
unconditionally overwriting any existing entry for that key, leaves every
other key's entry unchanged, and returns a nil error. -/
theorem c8_set_overwrites (c : CacheState) (now ttl : Nat) (key k' : String)
    (sub : Subscriber) :
    (cacheSet c now key sub ttl).2.1 = none ∧
    lookupItem (cacheSet c now key sub ttl).1 key = some ⟨sub, now + ttl⟩ ∧
    (k' ≠ key → lookupItem (cacheSet c now key sub ttl).1 k' = lookupItem c k') := by
  refine ⟨rfl, by simp [cacheSet, lookupItem], fun h => ?_⟩
  simp [cacheSet, lookupItem, Ne.symm h, lookupItem_filterNe_other c key k' h]

/-- Witness for C8 at a concrete state: the unrelated key "j" is untouched
by a Set of "k". -/
theorem c8_set_overwrites_witness :
    ("j" : String) ≠ "k" ∧
    lookupItem (cacheSet [("j", ⟨subA, 9⟩)] 1 "k" subA 2).1 "j" =
      lookupItem [("j", (⟨subA, 9⟩ : CacheItem))] "j" :=
  ⟨by decide, (c8_set_overwrites [("j", ⟨subA, 9⟩)] 1 2 "k" "j" subA).2.2 (by decide)⟩

/-- C9: Cache.Delete is idempotent and total — it removes the entry if
present, leaves other keys unchanged, returns a nil error whether or not
the key existed, and deleting twice yields the same state as deleting
once. -/
theorem c9_delete_idempotent (c : CacheState) (key k' : String) :
    (cacheDelete c key).2.1 = none ∧
    lookupItem (cacheDelete c key).1 key = none ∧
    (k' ≠ key → lookupItem (cacheDelete c key).1 k' = lookupItem c k') ∧
    (cacheDelete (cacheDelete c key).1 key).1 = (cacheDelete c key).1 := by
  refine ⟨rfl, lookupItem_filterNe_self c key,
    fun h => lookupItem_filterNe_other c key k' h, ?_⟩
  simp [cacheDelete, List.filter_filter]

/-- Witness for C9 at a concrete state: deleting "k" leaves "j" alone, both
when "k" exists and in the repeated delete. -/
theorem c9_delete_idempotent_witness :
    ("j" : String) ≠ "k" ∧
    lookupItem (cacheDelete [("j", ⟨subA, 9⟩), ("k", ⟨subA, 4⟩)] "k").1 "j" =
      lookupItem [("j", (⟨subA, 9⟩ : CacheItem)), ("k", ⟨subA, 4⟩)] "j" :=
  ⟨by decide,
    (c9_delete_idempotent [("j", ⟨subA, 9⟩), ("k", ⟨subA, 4⟩)] "k" "j").2.2.1 (by decide)⟩

/-- C10: every mutating operation of the in-memory origin store is atomic
on error — when Create (id already present), Update (id absent) or Delete
(id absent or malformed) returns a non-nil error, the subscriber map is
exactly what it was before the call. -/
theorem c10_repo_atomic_on_error (r : RepoState) (now : Nat) (sub : Subscriber)
    (id : String) :
    ((repoCreate r sub).2.1 ≠ none → (repoCreate r sub).1 = r) ∧
    ((repoUpdate r now sub).2.1 ≠ none → (repoUpdate r now sub).1 = r) ∧
    ((repoDelete r id).2.1 ≠ none → (repoDelete r id).1 = r) := by
  refine ⟨?_, ?_, ?_⟩
  · unfold repoCreate
    cases h : lookupSub r sub.id <;> simp [h]
  · unfold repoUpdate
    cases h : lookupSub r sub.id <;> simp [h]
  · unfold repoDelete
    cases hp : uuidParse id with
    | none => simp
    | some pid => cases h : lookupSub r pid <;> simp [h]

/-- Witness for C10 at concrete failing inputs: a duplicate Create, an
Update of an absent id, and a Delete with a malformed id all leave the
store untouched. -/
theorem c10_repo_atomic_on_error_witness :
    (repoCreate [("a", subA)] subA).1 = [("a", subA)] ∧
    (repoUpdate [] 0 subA).1 = [] ∧
    (repoDelete [] "zz").1 = [] :=
  ⟨(c10_repo_atomic_on_error [("a", subA)] 0 subA "zz").1 (by decide),
    (c10_repo_atomic_on_error [] 0 subA "zz").2.1 (by decide),
    (c10_repo_atomic_on_error [] 0 subA "zz").2.2 (by decide)⟩
